import Mathlib

/-!
Verification of the TcpC transport library (wire codec, bounded queue,
client session, server pipeline) against its specification.

The development is a shallow embedding of the C sources:
byte buffers are lists of naturals (each a byte value, reduced mod 256 where
the C code truncates), machine-integer arithmetic is made explicit, and
nullable pointer arguments become Option values or Bool presence flags.
-/

namespace TcpC

/-- A cipher is an in-place transform of a contiguous byte region
(C type: void f(char* data, int len)).  We model the region before/after as
lists; an in-place C transform is necessarily length preserving, which
appears as an explicit hypothesis where a cipher is universally quantified. -/
abbrev Cipher := List Nat → List Nat

/-- include/CommonDef.h line 20: TARGET_NAME_LEN = (7 + 1). -/
def TARGET_NAME_LEN : Nat := 7 + 1

/-- include/CommonDef.h line 21: DEFAULT_BUF_SIZE = 4096. -/
def DEFAULT_BUF_SIZE : Nat := 4096

/-- include/CommonDef.h line 22: CHECKSUM_LEN = 1. -/
def CHECKSUM_LEN : Nat := 1

/-- sizeof(PacketHeader): a packed struct of one uint32 and char[8], so 12. -/
def headerSize : Nat := 4 + TARGET_NAME_LEN

/-- src/PacketUtils.c Packet_DefaultXor: XOR every byte with the key 0x5A. -/
def Packet_DefaultXor (data : List Nat) : List Nat :=
  data.map (fun b => b ^^^ 0x5A)

/-- src/PacketUtils.c Packet_CalcChecksum: uint8 sum of all bytes
(overflow ignored), i.e. the sum mod 256. -/
def Packet_CalcChecksum (data : List Nat) : Nat :=
  data.sum % 256

/-- htonl: encode a uint32 as 4 bytes in network (big-endian) order. -/
def htonl (x : Nat) : List Nat :=
  [x / 2 ^ 24 % 256, x / 2 ^ 16 % 256, x / 2 ^ 8 % 256, x % 256]

/-- ntohl applied to the first four bytes of a buffer: decode network
(big-endian) byte order into a uint32. -/
def ntohl (buf : List Nat) : Nat :=
  buf.getD 0 0 * 2 ^ 24 + buf.getD 1 0 * 2 ^ 16 + buf.getD 2 0 * 2 ^ 8 + buf.getD 3 0

/-- The 8-byte target field written by Packet_Serialize step 2:
memset(header.target, 0, 8) followed by strncpy(header.target, target_code, 8).
A null target_code (modeled as none) leaves the field all zero; a C string
target (a list of nonzero bytes) is copied up to 8 bytes and NUL padded. -/
def targetField (target_code : Option (List Nat)) : List Nat :=
  match target_code with
  | none => List.replicate TARGET_NAME_LEN 0
  | some t => t.take TARGET_NAME_LEN ++ List.replicate (TARGET_NAME_LEN - t.length) 0

/-- src/PacketUtils.c Packet_Serialize (lines 44-87).
Returns none where the C function returns -1 (total_len > max_buf_size),
otherwise the total_len bytes written into out_buffer:
big-endian length, 8-byte target field, body encrypted in place when an
encrypt function is given and body_len > 0, and a trailing checksum over
header plus encrypted body.  The body pointer is modeled as non-null;
the C guard (body_ptr && body_len > 0) reduces to 0 < body.length. -/
def Packet_Serialize (max_buf_size : Nat) (target_code : Option (List Nat))
    (body : List Nat) (encrypt_func : Option Cipher) : Option (List Nat) :=
  let total_len := headerSize + body.length + CHECKSUM_LEN
  if max_buf_size < total_len then
    none
  else
    let encBody :=
      match encrypt_func with
      | some f => if 0 < body.length then f body else body
      | none => body
    let hdr := htonl total_len ++ targetField target_code ++ encBody
    some (hdr ++ [Packet_CalcChecksum hdr])

/-- include/CommonDef.h PacketResult enum. -/
inductive PacketResult
  | PKT_SUCCESS
  | PKT_ERR_TOO_SHORT
  | PKT_ERR_LENGTH_MISMATCH
  | PKT_ERR_CHECKSUM_FAIL
  | PKT_ERR_NULL_PTR
deriving DecidableEq, Repr

/-- Everything Packet_Parse communicates back to its caller: the result code
and the values written through the three nullable output pointers (none when
the corresponding pointer argument was NULL, so nothing was written). -/
structure ParseOut where
  result : PacketResult
  target_out : Option (List Nat)
  body_out : Option (List Nat)
  body_len_out : Option Nat
deriving DecidableEq, Repr

/-- src/PacketUtils.c Packet_Parse (lines 93-148).
The input buffer is the list of the in_len received bytes (the function
reads only bytes 0 .. in_len-1).  has_out_target / has_out_body_ptr /
has_out_body_len model whether the corresponding pointer argument is
non-null; each write in the C code is guarded by exactly that check.
Order of checks follows the source: minimum length, then length field,
then checksum; on success the target is copied as 8 raw bytes with the
last byte forced to NUL, the body is the region after the header
(decrypted in place when a decrypt function is given and body_len > 0). -/
def Packet_Parse (in_buffer : List Nat) (decrypt_func : Option Cipher)
    (has_out_target has_out_body_ptr has_out_body_len : Bool) : ParseOut :=
  let in_len := in_buffer.length
  if in_len < headerSize + CHECKSUM_LEN then
    ⟨.PKT_ERR_TOO_SHORT, none, none, none⟩
  else
    let total_len := ntohl in_buffer
    if total_len ≠ in_len then
      ⟨.PKT_ERR_LENGTH_MISMATCH, none, none, none⟩
    else
      let recv_checksum := in_buffer.getD (in_len - 1) 0
      let calc_checksum := Packet_CalcChecksum (in_buffer.take (in_len - 1))
      if recv_checksum ≠ calc_checksum then
        ⟨.PKT_ERR_CHECKSUM_FAIL, none, none, none⟩
      else
        let tgt := ((in_buffer.drop 4).take TARGET_NAME_LEN).set (TARGET_NAME_LEN - 1) 0
        let body_len := total_len - headerSize - CHECKSUM_LEN
        let raw_body := (in_buffer.drop headerSize).take body_len
        let body :=
          match decrypt_func with
          | some f => if 0 < body_len then f raw_body else raw_body
          | none => raw_body
        ⟨.PKT_SUCCESS,
         if has_out_target then some tgt else none,
         if has_out_body_ptr then some body else none,
         if has_out_body_len then some body_len else none⟩

/-- Reading an 8-byte target buffer the way C callers do, as a NUL-terminated
string: the bytes strictly before the first NUL. -/
def cString (l : List Nat) : List Nat :=
  l.takeWhile (fun b => b ≠ 0)

/-- Application of a nullable cipher function pointer to a byte region, used
to state hypotheses about encrypt/decrypt pairs: a null pointer is the
identity, a non-null pointer applies the function. -/
def applyCipher (c : Option Cipher) (l : List Nat) : List Nat :=
  match c with
  | none => l
  | some f => f l

/-- The exact bytes impl_Server_Run (src/TcpServer.c lines 366-369) writes to
every newly accepted client socket: send(client_fd, "ENC:XOR", strlen("ENC:XOR"), 0),
i.e. the 7 raw ASCII bytes of the string, with no framing. -/
def serverHandshakeBytes : List Nat := [69, 78, 67, 58, 88, 79, 82]

/-- The handshake frame described by the specification (section 6): a single
serialized frame with target "SEC_ARG" (ASCII bytes) whose body is the 4-byte
host-order (little-endian) int32 strategy code 1 (XOR), with no cipher applied. -/
def specHandshakeFrame : Option (List Nat) :=
  Packet_Serialize DEFAULT_BUF_SIZE (some [83, 69, 67, 95, 65, 82, 71]) [1, 0, 0, 0] none

/-- src/SafeQueue.c struct SafeQueue: the linked list of nodes from head to
tail is modeled as the list of stored items (front of the list = head = Pop
side, end of the list = tail = Push side); count is the list length and
capacity the fixed bound.  The mutex and condition variable synchronize the
operations but carry no data. -/
structure SafeQueue (α : Type) where
  items : List α
  capacity : Nat
deriving DecidableEq, Repr

/-- src/SafeQueue.c SafeQueue_Create: NULL (none) for capacity <= 0,
otherwise an empty queue with the given capacity.  Allocation of the queue
structure itself is modeled as succeeding. -/
def SafeQueue_Create (α : Type) (capacity : Int) : Option (SafeQueue α) :=
  if capacity ≤ 0 then none else some ⟨[], capacity.toNat⟩

/-- src/SafeQueue.c SafeQueue_Enqueue (lines 102-154).
Arguments model the nullable queue and data pointers.  The result is the
queue state after the call, the returned bool, and whether
pthread_cond_signal was invoked (exactly once, in the success branch).
Node allocation is modeled as succeeding. -/
def SafeQueue_Enqueue {α : Type} (queue : Option (SafeQueue α)) (data : Option α) :
    Option (SafeQueue α) × Bool × Bool :=
  match queue, data with
  | none, _ => (none, false, false)
  | some q, none => (some q, false, false)
  | some q, some d =>
    if q.items.length < q.capacity then
      (some { q with items := q.items ++ [d] }, true, true)
    else
      (some q, false, false)

/-- src/SafeQueue.c SafeQueue_Dequeue (lines 156-184).
Returns the dequeued item and the queue state after the call.  A NULL queue
yields (none, none) as in C; an empty queue blocks on the condition variable
in C, modeled here as yielding no item and leaving the queue unchanged. -/
def SafeQueue_Dequeue {α : Type} (queue : Option (SafeQueue α)) :
    Option α × Option (SafeQueue α) :=
  match queue with
  | none => (none, none)
  | some q =>
    match q.items with
    | [] => (none, some q)
    | d :: rest => (some d, some { q with items := rest })

/-- The fields of TcpClientContext (include/TcpClient.h) that ResetConnection
reads or writes, plus representative untouched fields; closed_fds records the
close system calls issued, so that the side effect of a call is visible. -/
structure TcpClientState where
  sockfd : Int
  encrypt_fn : Option Cipher
  decrypt_fn : Option Cipher
  is_running : Bool
  server_port : Int
  closed_fds : List Int

/-- src/TcpClient.c ResetConnection (lines 43-60): under the connection
mutex, if sockfd is not -1 close it and set it to -1; then reinstall the
default XOR pair as the session encrypt/decrypt functions. -/
def ResetConnection (ctx : TcpClientState) : TcpClientState :=
  let ctx1 :=
    if ctx.sockfd ≠ -1 then
      { ctx with closed_fds := ctx.closed_fds ++ [ctx.sockfd], sockfd := -1 }
    else
      ctx
  { ctx1 with encrypt_fn := some Packet_DefaultXor, decrypt_fn := some Packet_DefaultXor }

/-! ### General list lemmas used by the codec proofs -/

theorem getD_set_self : ∀ (l : List Nat) (i v : Nat), i < l.length →
    (l.set i v).getD i 0 = v
  | [], i, v, h => absurd h (by simp)
  | _ :: _, 0, v, _ => rfl
  | _ :: t, i + 1, v, h => getD_set_self t i v (by simpa using h)

theorem getD_set_ne : ∀ (l : List Nat) (i k v : Nat), i ≠ k →
    (l.set i v).getD k 0 = l.getD k 0
  | [], _, _, _, _ => rfl
  | _ :: _, 0, 0, _, hne => absurd rfl hne
  | _ :: _, 0, _ + 1, _, _ => rfl
  | _ :: _, _ + 1, 0, _, _ => rfl
  | _ :: t, i + 1, k + 1, v, hne => getD_set_ne t i k v (fun h => hne (by omega))

theorem set_append_left : ∀ (l1 l2 : List Nat) (i v : Nat), i < l1.length →
    (l1 ++ l2).set i v = l1.set i v ++ l2
  | [], _, i, v, h => absurd h (by simp)
  | _ :: _, _, 0, _, _ => rfl
  | a :: t, l2, i + 1, v, h => by
      simpa using set_append_left t l2 i v (by simpa using h)

theorem set_append_len (l1 l2 : List Nat) (v : Nat) :
    (l1 ++ l2).set l1.length v = l1 ++ l2.set 0 v := by
  induction l1 with
  | nil => rfl
  | cons a t ih => simp [ih]

theorem sum_set_add : ∀ (l : List Nat) (i v : Nat), i < l.length →
    (l.set i v).sum + l.getD i 0 = l.sum + v
  | [], i, v, h => absurd h (by simp)
  | a :: t, 0, v, _ => by simp; omega
  | a :: t, i + 1, v, h => by
      have ih := sum_set_add t i v (by simpa using h)
      simp at ih ⊢
      omega

theorem getD_snoc (l : List Nat) (a : Nat) : (l ++ [a]).getD l.length 0 = a := by
  induction l with
  | nil => rfl
  | cons b t ih => simp [ih]

theorem getD_replicate_zero : ∀ (n k : Nat), (List.replicate n 0).getD k 0 = 0
  | 0, _ => rfl
  | _ + 1, 0 => rfl
  | n + 1, k + 1 => getD_replicate_zero n k

theorem set_getD_self_zero : ∀ (l : List Nat) (n : Nat), l.getD n 0 = 0 →
    l.set n 0 = l
  | [], _, _ => rfl
  | a :: t, 0, h => by simp at h; simp [h]
  | a :: t, n + 1, h => by
      simpa using set_getD_self_zero t n (by simpa using h)

theorem take_set_last (l : List Nat) (h : TARGET_NAME_LEN ≤ l.length) :
    (l.take TARGET_NAME_LEN).set (TARGET_NAME_LEN - 1) 0 = l.take 7 ++ [0] := by
  have hlen : (l.take TARGET_NAME_LEN).length = TARGET_NAME_LEN := by
    simpa [TARGET_NAME_LEN] using h
  rw [List.set_eq_take_cons_drop _ (by rw [hlen]; norm_num [TARGET_NAME_LEN])]
  have h1 : (l.take TARGET_NAME_LEN).take (TARGET_NAME_LEN - 1) = l.take 7 := by
    rw [List.take_take]
    norm_num [TARGET_NAME_LEN]
  have h2 : (l.take TARGET_NAME_LEN).drop (TARGET_NAME_LEN - 1 + 1) = [] := by
    apply List.drop_eq_nil_of_le
    simp [hlen, TARGET_NAME_LEN]
  rw [h1, h2]

theorem cString_append_zero (T rest : List Nat) (hT : ∀ x ∈ T, x ≠ 0) :
    cString (T ++ 0 :: rest) = T := by
  induction T with
  | nil => simp [cString]
  | cons a t ih =>
      have ha : a ≠ 0 := hT a (by simp)
      have ht : ∀ x ∈ t, x ≠ 0 := fun x hx => hT x (by simp [hx])
      have htw := ih ht
      simp [cString, List.takeWhile_cons, ha] at htw ⊢
      exact htw

theorem xor_pow_ne_self (b j : Nat) : b ^^^ 2 ^ j ≠ b := by
  intro h
  have h2 : b ^^^ (b ^^^ 2 ^ j) = b ^^^ b := congrArg (b ^^^ ·) h
  rw [← Nat.xor_assoc, Nat.xor_self, Nat.zero_xor] at h2
  exact absurd h2 (Nat.pos_iff_ne_zero.mp (Nat.two_pow_pos j))

theorem targetField_length (tc : Option (List Nat)) :
    (targetField tc).length = TARGET_NAME_LEN := by
  match tc with
  | none => simp [targetField]
  | some t =>
      simp [targetField, TARGET_NAME_LEN]
      omega

theorem ntohl_htonl_append (x : Nat) (rest : List Nat) (hx : x < 2 ^ 32) :
    ntohl (htonl x ++ rest) = x := by
  simp only [htonl, ntohl, List.cons_append, List.nil_append]
  simp only [List.getD_cons_zero, List.getD_cons_succ]
  omega

/-- Characterization of Packet_Serialize when the frame fits in the buffer:
the emitted bytes are the big-endian total length, the 8-byte target field,
the (possibly encrypted) body, and a trailing mod-256 checksum over
everything before it. -/
theorem Packet_Serialize_eq (max_buf_size : Nat) (tc : Option (List Nat))
    (B : List Nat) (enc : Option Cipher)
    (h : headerSize + B.length + CHECKSUM_LEN ≤ max_buf_size) :
    Packet_Serialize max_buf_size tc B enc =
      some ((htonl (headerSize + B.length + CHECKSUM_LEN) ++ targetField tc ++
              (match enc with
               | some f => if 0 < B.length then f B else B
               | none => B)) ++
            [Packet_CalcChecksum
              (htonl (headerSize + B.length + CHECKSUM_LEN) ++ targetField tc ++
                (match enc with
                 | some f => if 0 < B.length then f B else B
                 | none => B))]) := by
  simp only [Packet_Serialize]
  rw [if_neg (by omega)]

/-- Packet_Serialize in terms of applyCipher: for a length-preserving
encrypt function (every in-place C cipher is) the emitted body region is
exactly applyCipher enc B. -/
theorem Packet_Serialize_applyCipher_eq (max_buf_size : Nat) (tc : Option (List Nat))
    (B : List Nat) (enc : Option Cipher)
    (hfit : headerSize + B.length + CHECKSUM_LEN ≤ max_buf_size)
    (hlen : (applyCipher enc B).length = B.length) :
    Packet_Serialize max_buf_size tc B enc =
      some ((htonl (headerSize + B.length + CHECKSUM_LEN) ++ targetField tc ++
              applyCipher enc B) ++
            [Packet_CalcChecksum
              (htonl (headerSize + B.length + CHECKSUM_LEN) ++ targetField tc ++
                applyCipher enc B)]) := by
  rw [Packet_Serialize_eq max_buf_size tc B enc hfit]
  cases enc with
  | none => rfl
  | some f =>
      by_cases hb : 0 < B.length
      · simp [applyCipher, hb]
      · have hB0 : B = [] := List.length_eq_zero.mp (by omega)
        subst hB0
        have hf0 : f ([] : List Nat) = [] :=
          List.length_eq_zero.mp (by simpa [applyCipher] using hlen)
        simp [applyCipher, hf0]

/-- Characterization of the success branch of Packet_Parse: when the three
checks pass, the call returns PKT_SUCCESS together with the target, body and
body length outputs for exactly the output arguments that are present. -/
theorem Packet_Parse_success_eq (buf : List Nat) (dec : Option Cipher) (t bp bl : Bool)
    (h1 : headerSize + CHECKSUM_LEN ≤ buf.length)
    (h2 : ntohl buf = buf.length)
    (h3 : buf.getD (buf.length - 1) 0 = Packet_CalcChecksum (buf.take (buf.length - 1))) :
    Packet_Parse buf dec t bp bl =
      ⟨PacketResult.PKT_SUCCESS,
       if t then some (((buf.drop 4).take TARGET_NAME_LEN).set (TARGET_NAME_LEN - 1) 0) else none,
       if bp then
         some (match dec with
           | some f =>
               if 0 < buf.length - headerSize - CHECKSUM_LEN then
                 f ((buf.drop headerSize).take (buf.length - headerSize - CHECKSUM_LEN))
               else
                 (buf.drop headerSize).take (buf.length - headerSize - CHECKSUM_LEN)
           | none => (buf.drop headerSize).take (buf.length - headerSize - CHECKSUM_LEN))
       else none,
       if bl then some (buf.length - headerSize - CHECKSUM_LEN) else none⟩ := by
  simp only [Packet_Parse]
  rw [h2]
  rw [if_neg (by omega), if_neg (fun hh => hh rfl), if_neg (fun hh => hh h3)]

/-- Characterization of the first failure branch of Packet_Parse. -/
theorem Packet_Parse_too_short_eq (buf : List Nat) (dec : Option Cipher) (t bp bl : Bool)
    (h1 : buf.length < headerSize + CHECKSUM_LEN) :
    Packet_Parse buf dec t bp bl = ⟨PacketResult.PKT_ERR_TOO_SHORT, none, none, none⟩ := by
  simp only [Packet_Parse]
  rw [if_pos h1]

/-- Characterization of the second failure branch of Packet_Parse. -/
theorem Packet_Parse_length_mismatch_eq (buf : List Nat) (dec : Option Cipher) (t bp bl : Bool)
    (h1 : headerSize + CHECKSUM_LEN ≤ buf.length) (h2 : ntohl buf ≠ buf.length) :
    Packet_Parse buf dec t bp bl = ⟨PacketResult.PKT_ERR_LENGTH_MISMATCH, none, none, none⟩ := by
  simp only [Packet_Parse]
  rw [if_neg (by omega), if_pos h2]

/-- Characterization of the third failure branch of Packet_Parse. -/
theorem Packet_Parse_checksum_fail_eq (buf : List Nat) (dec : Option Cipher) (t bp bl : Bool)
    (h1 : headerSize + CHECKSUM_LEN ≤ buf.length) (h2 : ntohl buf = buf.length)
    (h3 : buf.getD (buf.length - 1) 0 ≠ Packet_CalcChecksum (buf.take (buf.length - 1))) :
    Packet_Parse buf dec t bp bl = ⟨PacketResult.PKT_ERR_CHECKSUM_FAIL, none, none, none⟩ := by
  simp only [Packet_Parse]
  rw [if_neg (by omega), if_neg (fun hh => hh h2), if_pos h3]

/-! ### Claim theorems -/

/-- C2: on every accepted client connection the reference server is claimed to
send a single handshake frame with target "SEC_ARG" and a 4-byte int32
strategy code (XOR = 1), unciphered.  The code instead sends the 7 raw bytes
of the string "ENC:XOR": too short to even be a frame (the client-side parse
of those bytes reports TooShort), and different from the frame the
specification describes. -/
theorem C2_server_sends_raw_string_not_frame :
    serverHandshakeBytes.length = 7 ∧
    (Packet_Parse serverHandshakeBytes none true true true).result
      = PacketResult.PKT_ERR_TOO_SHORT ∧
    specHandshakeFrame ≠ some serverHandshakeBytes := by
  decide

/-- C4 (counterexample): the claim says Packet_Parse returns LengthMismatch
whenever in_len differs from the decoded big-endian total_len, but on the
5-byte buffer [0,0,0,100,0] (decoded total_len 100, in_len 5, which differ)
the code returns TooShort, because the minimum-length check runs first. -/
theorem C4_counterexample :
    ntohl [0, 0, 0, 100, 0] = 100 ∧
    ([0, 0, 0, 100, 0] : List Nat).length = 5 ∧
    (Packet_Parse [0, 0, 0, 100, 0] none true true true).result
      = PacketResult.PKT_ERR_TOO_SHORT ∧
    (Packet_Parse [0, 0, 0, 100, 0] none true true true).result
      ≠ PacketResult.PKT_ERR_LENGTH_MISMATCH := by
  decide

/-- C4 (amended): for every input of at least header_size + checksum_size
(= 13) bytes whose decoded big-endian total_len differs from in_len,
Packet_Parse returns LengthMismatch; shorter inputs return TooShort first. -/
theorem C4_length_mismatch (buf : List Nat) (dec : Option Cipher) (t bp bl : Bool)
    (hmin : headerSize + CHECKSUM_LEN ≤ buf.length)
    (hne : ntohl buf ≠ buf.length) :
    (Packet_Parse buf dec t bp bl).result = PacketResult.PKT_ERR_LENGTH_MISMATCH := by
  rw [Packet_Parse_length_mismatch_eq buf dec t bp bl hmin hne]

/-- C4 (witness): the amended theorem applied to a 13-byte all-zero buffer,
whose length field decodes to 0 and not 13. -/
theorem C4_length_mismatch_witness :
    headerSize + CHECKSUM_LEN ≤ (List.replicate 13 0).length ∧
    ntohl (List.replicate 13 0) ≠ (List.replicate 13 0).length ∧
    (Packet_Parse (List.replicate 13 0) none true true true).result
      = PacketResult.PKT_ERR_LENGTH_MISMATCH :=
  ⟨by decide, by decide, C4_length_mismatch (List.replicate 13 0) none true true true
    (by decide) (by decide)⟩

/-- C5 (counterexample): the claim says Packet_Parse returns NullPtr when a
required argument is missing, but parsing a well-formed 13-byte frame with
all three output pointers NULL returns Success, not NullPtr: every output
argument is optional in the code. -/
theorem C5_counterexample :
    (Packet_Parse [0, 0, 0, 13, 65, 66, 67, 68, 69, 70, 71, 72, 49]
        none false false false).result = PacketResult.PKT_SUCCESS ∧
    (Packet_Parse [0, 0, 0, 13, 65, 66, 67, 68, 69, 70, 71, 72, 49]
        none false false false).result ≠ PacketResult.PKT_ERR_NULL_PTR := by
  decide

/-- C5 (amended): Packet_Parse never returns PKT_ERR_NULL_PTR for any input,
decrypt function, or combination of present/absent output arguments; the
out_target, out_body_ptr and out_body_len writes are each null-guarded and
the result code does not depend on them. -/
theorem C5_parse_never_null_ptr (buf : List Nat) (dec : Option Cipher) (t bp bl : Bool) :
    (Packet_Parse buf dec t bp bl).result ≠ PacketResult.PKT_ERR_NULL_PTR := by
  by_cases h1 : buf.length < headerSize + CHECKSUM_LEN
  · rw [Packet_Parse_too_short_eq buf dec t bp bl h1]
    simp
  · by_cases h2 : ntohl buf = buf.length
    · by_cases h3 : buf.getD (buf.length - 1) 0
          = Packet_CalcChecksum (buf.take (buf.length - 1))
      · rw [Packet_Parse_success_eq buf dec t bp bl (by omega) h2 h3]
        simp
      · rw [Packet_Parse_checksum_fail_eq buf dec t bp bl (by omega) h2 h3]
        simp
    · rw [Packet_Parse_length_mismatch_eq buf dec t bp bl (by omega) h2]
      simp

/-- C9: whenever Packet_Parse succeeds with a non-null out_target, the bytes
written to out_target are bytes 0..6 of the 8-byte wire target field
(buffer offsets 4..10) followed by a forced NUL at index 7; the 8th wire
target byte (buffer offset 11) is never delivered. -/
theorem C9_target_nul_terminated (buf : List Nat) (dec : Option Cipher) (bp bl : Bool)
    (h : (Packet_Parse buf dec true bp bl).result = PacketResult.PKT_SUCCESS) :
    (Packet_Parse buf dec true bp bl).target_out
      = some ((buf.drop 4).take 7 ++ [0]) := by
  by_cases h1 : buf.length < headerSize + CHECKSUM_LEN
  · rw [Packet_Parse_too_short_eq buf dec true bp bl h1] at h
    simp at h
  · by_cases h2 : ntohl buf = buf.length
    · by_cases h3 : buf.getD (buf.length - 1) 0
          = Packet_CalcChecksum (buf.take (buf.length - 1))
      · have hb : TARGET_NAME_LEN ≤ (buf.drop 4).length := by
          simp only [List.length_drop, TARGET_NAME_LEN]
          simp only [headerSize, CHECKSUM_LEN, TARGET_NAME_LEN] at h1
          omega
        rw [Packet_Parse_success_eq buf dec true bp bl (by omega) h2 h3]
        simp [take_set_last _ hb]
      · rw [Packet_Parse_checksum_fail_eq buf dec true bp bl (by omega) h2 h3] at h
        simp at h
    · rw [Packet_Parse_length_mismatch_eq buf dec true bp bl (by omega) h2] at h
      simp at h

/-- C9 (witness): parsing a frame whose wire target field is the 8 bytes
"ABCDEFGH" delivers "ABCDEFG" plus a NUL: the final wire byte 72 is dropped. -/
theorem C9_target_nul_terminated_witness :
    (Packet_Parse [0, 0, 0, 13, 65, 66, 67, 68, 69, 70, 71, 72, 49]
        none true true true).result = PacketResult.PKT_SUCCESS ∧
    (Packet_Parse [0, 0, 0, 13, 65, 66, 67, 68, 69, 70, 71, 72, 49]
        none true true true).target_out = some [65, 66, 67, 68, 69, 70, 71, 0] :=
  ⟨by decide,
   (C9_target_nul_terminated [0, 0, 0, 13, 65, 66, 67, 68, 69, 70, 71, 72, 49]
      none true true (by decide)).trans (by decide)⟩

/-- C8: ResetConnection is idempotent, closes the socket (sets it to -1) and
reinstalls the default XOR cipher pair; a second call in succession changes
nothing, not even the trace of close system calls. -/
theorem C8_reset_connection_idempotent (ctx : TcpClientState) :
    ResetConnection (ResetConnection ctx) = ResetConnection ctx ∧
    (ResetConnection ctx).sockfd = -1 ∧
    (ResetConnection ctx).encrypt_fn = some Packet_DefaultXor ∧
    (ResetConnection ctx).decrypt_fn = some Packet_DefaultXor := by
  by_cases h : ctx.sockfd = -1 <;> simp [ResetConnection, h]

/-- Queues returned by SafeQueue_Create satisfy the count bound.  Together
with the preservation lemmas below this justifies assuming
items.length <= capacity for any queue reached through the API. -/
theorem SafeQueue_Create_inv {α : Type} (c : Int) (q : SafeQueue α)
    (h : SafeQueue_Create α c = some q) : q.items.length ≤ q.capacity := by
  unfold SafeQueue_Create at h
  by_cases hc : c ≤ 0
  · simp [hc] at h
  · simp [hc] at h
    simp [← h]

/-- SafeQueue_Enqueue preserves the count bound. -/
theorem SafeQueue_Enqueue_inv {α : Type} (q q2 : SafeQueue α) (data : Option α)
    (hinv : q.items.length ≤ q.capacity)
    (h : (SafeQueue_Enqueue (some q) data).1 = some q2) :
    q2.items.length ≤ q2.capacity := by
  match data with
  | none =>
      simp [SafeQueue_Enqueue] at h
      simpa [← h] using hinv
  | some d =>
      by_cases hfull : q.items.length < q.capacity
      · simp [SafeQueue_Enqueue, hfull] at h
        simp [← h]
        omega
      · simp [SafeQueue_Enqueue, hfull] at h
        simpa [← h] using hinv

/-- SafeQueue_Dequeue preserves the count bound. -/
theorem SafeQueue_Dequeue_inv {α : Type} (q q2 : SafeQueue α)
    (hinv : q.items.length ≤ q.capacity)
    (h : (SafeQueue_Dequeue (some q)).2 = some q2) :
    q2.items.length ≤ q2.capacity := by
  match hq : q.items with
  | [] =>
      simp [SafeQueue_Dequeue, hq] at h
      simpa [← h] using hinv
  | d :: rest =>
      simp [SafeQueue_Dequeue, hq] at h
      simp [← h]
      have := hq ▸ hinv
      simpa using Nat.le_of_succ_le this

/-- C6: for a queue with a valid count (count <= capacity, as established by
creation and preserved by every operation) and a non-null item,
SafeQueue_Enqueue returns false exactly when the count equals the capacity;
on returning true it has appended the item at the tail and has signalled one
waiting dequeuer (pthread_cond_signal is called exactly in that branch).
The function is a total state transformer: it never waits on the condition
variable. -/
theorem C6_enqueue_false_iff_full {α : Type} (q : SafeQueue α) (d : α)
    (hinv : q.items.length ≤ q.capacity) :
    ((SafeQueue_Enqueue (some q) (some d)).2.1 = false ↔
      q.items.length = q.capacity) ∧
    ((SafeQueue_Enqueue (some q) (some d)).2.1 = true →
      (SafeQueue_Enqueue (some q) (some d)).1 = some ⟨q.items ++ [d], q.capacity⟩ ∧
      (SafeQueue_Enqueue (some q) (some d)).2.2 = true) := by
  by_cases hfull : q.items.length < q.capacity
  · simp [SafeQueue_Enqueue, hfull]
    omega
  · simp [SafeQueue_Enqueue, hfull]
    omega

/-- C6 (witness): the theorem applied to an empty queue of capacity 1. -/
theorem C6_enqueue_false_iff_full_witness :
    (([] : List Nat).length ≤ 1) ∧
    (((SafeQueue_Enqueue (some (SafeQueue.mk ([] : List Nat) 1)) (some 5)).2.1 = false ↔
        ([] : List Nat).length = 1) ∧
     ((SafeQueue_Enqueue (some (SafeQueue.mk ([] : List Nat) 1)) (some 5)).2.1 = true →
        (SafeQueue_Enqueue (some (SafeQueue.mk ([] : List Nat) 1)) (some 5)).1
          = some ⟨[] ++ [5], 1⟩ ∧
        (SafeQueue_Enqueue (some (SafeQueue.mk ([] : List Nat) 1)) (some 5)).2.2 = true)) :=
  ⟨by decide, C6_enqueue_false_iff_full (SafeQueue.mk ([] : List Nat) 1) 5 (by decide)⟩

/-- C7: if three items a, b, c are successfully enqueued in that order into
an otherwise empty queue, three subsequent dequeues return a, b, c in
exactly that order (the dequeues block only on an empty queue, which never
happens here). -/
theorem C7_fifo_order {α : Type} (cap : Nat) (a b c : α)
    (h1 : (SafeQueue_Enqueue (some (SafeQueue.mk ([] : List α) cap)) (some a)).2.1 = true)
    (h2 : (SafeQueue_Enqueue
      (SafeQueue_Enqueue (some (SafeQueue.mk ([] : List α) cap)) (some a)).1
      (some b)).2.1 = true)
    (h3 : (SafeQueue_Enqueue (SafeQueue_Enqueue
      (SafeQueue_Enqueue (some (SafeQueue.mk ([] : List α) cap)) (some a)).1
      (some b)).1 (some c)).2.1 = true) :
    (let q3 := (SafeQueue_Enqueue (SafeQueue_Enqueue
      (SafeQueue_Enqueue (some (SafeQueue.mk ([] : List α) cap)) (some a)).1
      (some b)).1 (some c)).1
     let d1 := SafeQueue_Dequeue q3
     let d2 := SafeQueue_Dequeue d1.2
     let d3 := SafeQueue_Dequeue d2.2
     d1.1 = some a ∧ d2.1 = some b ∧ d3.1 = some c ∧ d3.2 = some ⟨[], cap⟩) := by
  by_cases hc0 : 0 < cap
  · by_cases hc1 : 1 < cap
    · by_cases hc2 : 2 < cap
      · simp [SafeQueue_Enqueue, SafeQueue_Dequeue, hc0, hc1, hc2]
      · simp [SafeQueue_Enqueue, hc0, hc1, hc2] at h3
    · simp [SafeQueue_Enqueue, hc0, hc1] at h2
  · simp [SafeQueue_Enqueue, hc0] at h1

/-- C7 (witness): the theorem applied to a queue of capacity 3 and the
items 1, 2, 3. -/
theorem C7_fifo_order_witness :
    ((SafeQueue_Enqueue (some (SafeQueue.mk ([] : List Nat) 3)) (some 1)).2.1 = true) ∧
    (let q3 := (SafeQueue_Enqueue (SafeQueue_Enqueue
      (SafeQueue_Enqueue (some (SafeQueue.mk ([] : List Nat) 3)) (some 1)).1
      (some 2)).1 (some 3)).1
     let d1 := SafeQueue_Dequeue q3
     let d2 := SafeQueue_Dequeue d1.2
     let d3 := SafeQueue_Dequeue d2.2
     d1.1 = some 1 ∧ d2.1 = some 2 ∧ d3.1 = some 3 ∧ d3.2 = some ⟨[], 3⟩) :=
  ⟨by decide, C7_fifo_order 3 1 2 3 (by decide) (by decide) (by decide)⟩

/-- C10: whenever SafeQueue_Enqueue returns false (null queue, null data, or
count at capacity), the queue state is exactly what it was before the call,
and enqueueing a null data pointer always fails. -/
theorem C10_enqueue_failure_unchanged {α : Type} (queue : Option (SafeQueue α))
    (data : Option α) :
    ((SafeQueue_Enqueue queue data).2.1 = false →
      (SafeQueue_Enqueue queue data).1 = queue) ∧
    (data = none → (SafeQueue_Enqueue queue data).2.1 = false) := by
  match queue, data with
  | none, _ => simp [SafeQueue_Enqueue]
  | some q, none => simp [SafeQueue_Enqueue]
  | some q, some d =>
      by_cases hfull : q.items.length < q.capacity
      · simp [SafeQueue_Enqueue, hfull]
      · simp [SafeQueue_Enqueue, hfull]

/-- C1: round-trip.  For every body B of at most DEFAULT_BUF_SIZE -
header_size - checksum_size (= 4083) bytes and every valid target string T
(a C string of at most 7 nonzero bytes, per TARGET_NAME_LEN = 7 + 1),
serializing with an encrypt function and parsing with a decrypt function
whose composition is the identity on the encrypted body (for example the
XOR pair, or both absent) succeeds and returns target T (read as a C
string) and body B. -/
theorem C1_serialize_parse_roundtrip (T B : List Nat) (enc dec : Option Cipher)
    (hT : T.length ≤ 7) (hTnz : ∀ x ∈ T, x ≠ 0)
    (hB : B.length ≤ DEFAULT_BUF_SIZE - headerSize - CHECKSUM_LEN)
    (hlen : (applyCipher enc B).length = B.length)
    (hinv : applyCipher dec (applyCipher enc B) = B) :
    ∃ frame tgt,
      Packet_Serialize DEFAULT_BUF_SIZE (some T) B enc = some frame ∧
      Packet_Parse frame dec true true true =
        ⟨PacketResult.PKT_SUCCESS, some tgt, some B, some B.length⟩ ∧
      cString tgt = T := by
  have hfit : headerSize + B.length + CHECKSUM_LEN ≤ DEFAULT_BUF_SIZE := by
    simp only [DEFAULT_BUF_SIZE, headerSize, CHECKSUM_LEN, TARGET_NAME_LEN] at hB ⊢
    omega
  have hser := Packet_Serialize_applyCipher_eq DEFAULT_BUF_SIZE (some T) B enc hfit hlen
  set L := headerSize + B.length + CHECKSUM_LEN with hL
  set tf := targetField (some T) with htf
  set D := applyCipher enc B with hDdef
  set hdr := htonl L ++ tf ++ D with hhdr
  set chk := Packet_CalcChecksum hdr with hchk
  set frame := hdr ++ [chk] with hframe
  have htonl_len : (htonl L).length = 4 := by simp [htonl]
  have htf_len : tf.length = 8 := by
    rw [htf, targetField_length]
    decide
  have hD_len : D.length = B.length := by rw [hDdef]; exact hlen
  have hhdr_len : hdr.length = 12 + B.length := by
    simp [hhdr, htonl_len, htf_len, hD_len]
    omega
  have hframe_len : frame.length = 13 + B.length := by
    simp [hframe, hhdr_len]
    omega
  have hL_val : L = 13 + B.length := by
    simp [hL, headerSize, CHECKSUM_LEN, TARGET_NAME_LEN]
    omega
  -- the three success conditions of Packet_Parse
  have h1 : headerSize + CHECKSUM_LEN ≤ frame.length := by
    simp only [headerSize, CHECKSUM_LEN, TARGET_NAME_LEN]
    omega
  have hL_le : L ≤ 4096 := by
    simpa [DEFAULT_BUF_SIZE] using hfit
  have h2 : ntohl frame = frame.length := by
    have hassoc : frame = htonl L ++ (tf ++ D ++ [chk]) := by
      simp [hframe, hhdr, List.append_assoc]
    have hnt : ntohl frame = L := by
      rw [hassoc]
      exact ntohl_htonl_append L _ (by omega)
    rw [hnt, hframe_len, hL_val]
  have h3 : frame.getD (frame.length - 1) 0
      = Packet_CalcChecksum (frame.take (frame.length - 1)) := by
    have hidx : frame.length - 1 = hdr.length := by omega
    rw [hidx, hframe, getD_snoc, List.take_left]
  -- the wire target field is T padded with NULs
  have htf_form : tf = T ++ (0 :: List.replicate (7 - T.length) 0) := by
    rw [htf]
    simp only [targetField]
    rw [List.take_of_length_le (by unfold TARGET_NAME_LEN; omega : T.length ≤ TARGET_NAME_LEN)]
    have hrepl : TARGET_NAME_LEN - T.length = (7 - T.length) + 1 := by
      simp only [TARGET_NAME_LEN]
      omega
    rw [hrepl, List.replicate_succ]
  have htf_get7 : tf.getD 7 0 = 0 := by
    rw [htf_form, List.getD_append_right _ _ _ _ (by omega), ← List.replicate_succ]
    exact getD_replicate_zero _ _
  refine ⟨frame, tf, hser, ?_, ?_⟩
  · -- the parse result
    rw [Packet_Parse_success_eq frame dec true true true h1 h2 h3]
    have htarget : ((frame.drop 4).take TARGET_NAME_LEN).set (TARGET_NAME_LEN - 1) 0
        = tf := by
      have hdrop : frame.drop 4 = tf ++ (D ++ [chk]) := by
        have : frame = htonl L ++ (tf ++ (D ++ [chk])) := by
          simp [hframe, hhdr, List.append_assoc]
        rw [this, ← htonl_len, List.drop_left]
      have htake : (frame.drop 4).take TARGET_NAME_LEN = tf := by
        rw [hdrop]
        have h8 : TARGET_NAME_LEN = tf.length := by rw [htf_len]; decide
        rw [h8, List.take_left]
      rw [htake]
      have : TARGET_NAME_LEN - 1 = 7 := by simp [TARGET_NAME_LEN]
      rw [this]
      exact set_getD_self_zero tf 7 htf_get7
    have hbodylen : frame.length - headerSize - CHECKSUM_LEN = B.length := by
      simp only [headerSize, CHECKSUM_LEN, TARGET_NAME_LEN]
      omega
    have hraw : (frame.drop headerSize).take (frame.length - headerSize - CHECKSUM_LEN)
        = D := by
      have hdrop12 : frame.drop headerSize = D ++ [chk] := by
        have hgrp : frame = (htonl L ++ tf) ++ (D ++ [chk]) := by
          simp [hframe, hhdr, List.append_assoc]
        have hlen12 : (htonl L ++ tf).length = headerSize := by
          simp only [List.length_append, htonl_len, htf_len, headerSize, TARGET_NAME_LEN]
        rw [hgrp, ← hlen12, List.drop_left]
      rw [hdrop12, hbodylen, show B.length = D.length from hD_len.symm]
      exact List.take_left D [chk]
    cases dec with
    | none =>
        have hDB : D = B := by simpa [applyCipher] using hinv
        have hraw2 : List.take B.length (List.drop headerSize frame) = B := by
          rw [← hbodylen, hraw]
          exact hDB
        simp [htarget, hraw, hbodylen, hDB, hraw2]
    | some f =>
        by_cases hb : 0 < B.length
        · have hfD : f D = B := by simpa [applyCipher] using hinv
          have hraw2 : f (List.take B.length (List.drop headerSize frame)) = B := by
            rw [← hbodylen, hraw]
            exact hfD
          simp [htarget, hraw, hbodylen, hb, hfD, hraw2]
        · have hB0 : B = [] := List.length_eq_zero.mp (by omega)
          have hD0 : D = [] := List.length_eq_zero.mp (by omega)
          simp [htarget, hraw, hbodylen, hB0, hD0]
  · -- the extracted target reads back as the C string T
    rw [htf_form]
    exact cString_append_zero T _ hTnz

/-- C3: single-bit-flip sensitivity.  For every frame produced by
Packet_Serialize (hflen and hbytes record what is automatic in C: an
in-place cipher keeps the body length, and every buffer byte is below 256),
flipping bit j of the byte at any offset i and parsing the result at the
frame's exact length yields ChecksumFail or LengthMismatch, never Success:
a flip inside the 4-byte length field changes the decoded total length,
a flip in the target/body region changes the mod-256 byte sum by a nonzero
amount below 256, and a flip of the trailing checksum byte changes the
stored checksum while the computed one is unchanged. -/
theorem C3_single_bit_flip_detected (tc : Option (List Nat)) (B : List Nat)
    (enc : Option Cipher) (frame : List Nat)
    (hser : Packet_Serialize DEFAULT_BUF_SIZE tc B enc = some frame)
    (hflen : frame.length = headerSize + B.length + CHECKSUM_LEN)
    (hbytes : ∀ x ∈ frame, x < 256)
    (i j : Nat) (hi : i < frame.length) (hj : j < 8)
    (dec : Option Cipher) (t bp bl : Bool) :
    (Packet_Parse (frame.set i (frame.getD i 0 ^^^ 2 ^ j)) dec t bp bl).result
        = PacketResult.PKT_ERR_CHECKSUM_FAIL ∨
    (Packet_Parse (frame.set i (frame.getD i 0 ^^^ 2 ^ j)) dec t bp bl).result
        = PacketResult.PKT_ERR_LENGTH_MISMATCH := by
  -- recover the shape of the serialized frame
  have hfit : headerSize + B.length + CHECKSUM_LEN ≤ DEFAULT_BUF_SIZE := by
    by_contra hc
    simp only [Packet_Serialize] at hser
    rw [if_pos (by omega)] at hser
    exact Option.noConfusion hser
  rw [Packet_Serialize_eq DEFAULT_BUF_SIZE tc B enc hfit] at hser
  obtain ⟨E, hfr⟩ : ∃ E, frame =
      (htonl (headerSize + B.length + CHECKSUM_LEN) ++ targetField tc ++ E) ++
      [Packet_CalcChecksum
        (htonl (headerSize + B.length + CHECKSUM_LEN) ++ targetField tc ++ E)] :=
    ⟨_, (Option.some.inj hser).symm⟩
  set hdr0 := htonl (headerSize + B.length + CHECKSUM_LEN) ++ targetField tc ++ E
    with hhdr0
  set chk0 := Packet_CalcChecksum hdr0 with hchk0
  have htonl_len4 : (htonl (headerSize + B.length + CHECKSUM_LEN)).length = 4 := by
    simp [htonl]
  have htf_len : (targetField tc).length = 8 := by
    rw [targetField_length]
    decide
  have hhdr0_len : hdr0.length = 12 + E.length := by
    simp [hhdr0, htonl_len4, htf_len]
    omega
  have hframe_len : frame.length = 13 + B.length := by
    simp only [headerSize, CHECKSUM_LEN, TARGET_NAME_LEN] at hflen
    omega
  have hhdr0_len_fr : hdr0.length = frame.length - 1 := by
    have := congrArg List.length hfr
    simp [List.length_append] at this
    omega
  have hLL_lt : headerSize + B.length + CHECKSUM_LEN < 2 ^ 32 := by
    simp only [DEFAULT_BUF_SIZE] at hfit
    omega
  have hnt_frame : ntohl frame = frame.length := by
    have hassoc : frame =
        htonl (headerSize + B.length + CHECKSUM_LEN) ++
          (targetField tc ++ E ++ [chk0]) := by
      rw [hfr]
      simp [hhdr0, List.append_assoc]
    calc ntohl frame = headerSize + B.length + CHECKSUM_LEN := by
          rw [hassoc]
          exact ntohl_htonl_append _ _ hLL_lt
      _ = frame.length := by
          simp only [headerSize, CHECKSUM_LEN, TARGET_NAME_LEN]
          omega
  set flip := frame.set i (frame.getD i 0 ^^^ 2 ^ j) with hflipdef
  have hflip_len : flip.length = frame.length := by
    rw [hflipdef, List.length_set]
  have h13 : headerSize + CHECKSUM_LEN ≤ flip.length := by
    rw [hflip_len]
    simp only [headerSize, CHECKSUM_LEN, TARGET_NAME_LEN]
    omega
  rcases Nat.lt_or_ge i 4 with hi4 | hi4
  · -- flip inside the big-endian length field: the decoded length changes
    right
    have hne : ntohl flip ≠ flip.length := by
      rw [hflip_len]
      intro hEq
      have hnt := hnt_frame
      simp only [ntohl] at hEq hnt
      interval_cases i
      · rw [hflipdef] at hEq
        rw [getD_set_self frame 0 _ (by omega), getD_set_ne frame 0 1 _ (by omega),
            getD_set_ne frame 0 2 _ (by omega), getD_set_ne frame 0 3 _ (by omega)] at hEq
        exact xor_pow_ne_self (frame.getD 0 0) j (by omega)
      · rw [hflipdef] at hEq
        rw [getD_set_ne frame 1 0 _ (by omega), getD_set_self frame 1 _ (by omega),
            getD_set_ne frame 1 2 _ (by omega), getD_set_ne frame 1 3 _ (by omega)] at hEq
        exact xor_pow_ne_self (frame.getD 1 0) j (by omega)
      · rw [hflipdef] at hEq
        rw [getD_set_ne frame 2 0 _ (by omega), getD_set_ne frame 2 1 _ (by omega),
            getD_set_self frame 2 _ (by omega), getD_set_ne frame 2 3 _ (by omega)] at hEq
        exact xor_pow_ne_self (frame.getD 2 0) j (by omega)
      · rw [hflipdef] at hEq
        rw [getD_set_ne frame 3 0 _ (by omega), getD_set_ne frame 3 1 _ (by omega),
            getD_set_ne frame 3 2 _ (by omega), getD_set_self frame 3 _ (by omega)] at hEq
        exact xor_pow_ne_self (frame.getD 3 0) j (by omega)
    rw [Packet_Parse_length_mismatch_eq flip dec t bp bl h13 hne]
  · -- flip in the target, body or checksum region: the length check passes
    left
    have hnt_flip : ntohl flip = flip.length := by
      rw [hflip_len, hflipdef]
      simp only [ntohl]
      rw [getD_set_ne frame i 0 _ (by omega), getD_set_ne frame i 1 _ (by omega),
          getD_set_ne frame i 2 _ (by omega), getD_set_ne frame i 3 _ (by omega)]
      simpa [ntohl] using hnt_frame
    have hbmem : frame.getD i 0 ∈ frame := by
      rw [List.getD_eq_getElem _ _ hi]
      exact List.getElem_mem hi
    have hblt : frame.getD i 0 < 256 := hbytes _ hbmem
    have hvlt : frame.getD i 0 ^^^ 2 ^ j < 256 := by
      have hb8 : frame.getD i 0 < 2 ^ 8 := by omega
      have h2j : (2 : Nat) ^ j < 2 ^ 8 := by
        have := Nat.pow_le_pow_right (show 1 ≤ 2 by omega) (show j ≤ 7 by omega)
        omega
      have := Nat.xor_lt_two_pow hb8 h2j
      omega
    rcases Nat.lt_or_ge i (frame.length - 1) with him | him
    · -- target/body region: the computed checksum changes, the stored one not
      have hihdr : i < hdr0.length := by omega
      have hflip_eq : flip = hdr0.set i (frame.getD i 0 ^^^ 2 ^ j) ++ [chk0] := by
        rw [hflipdef, hfr, set_append_left _ _ _ _ hihdr]
      have hlen' : flip.length - 1 = (hdr0.set i (frame.getD i 0 ^^^ 2 ^ j)).length := by
        rw [hflip_len, List.length_set]
        omega
      have hrecv : flip.getD (flip.length - 1) 0 = chk0 := by
        rw [hlen', hflip_eq, getD_snoc]
      have htake : flip.take (flip.length - 1)
          = hdr0.set i (frame.getD i 0 ^^^ 2 ^ j) := by
        rw [hlen', hflip_eq, List.take_left]
      have hb_hdr : hdr0.getD i 0 = frame.getD i 0 := by
        rw [hfr, List.getD_append _ _ _ _ hihdr]
      have hcs : flip.getD (flip.length - 1) 0
          ≠ Packet_CalcChecksum (flip.take (flip.length - 1)) := by
        rw [hrecv, htake]
        intro hEq
        have hsum := sum_set_add hdr0 i (frame.getD i 0 ^^^ 2 ^ j) hihdr
        rw [hb_hdr] at hsum
        have hmod : (hdr0.set i (frame.getD i 0 ^^^ 2 ^ j)).sum ≡ hdr0.sum [MOD 256] := by
          have : chk0 = (hdr0.set i (frame.getD i 0 ^^^ 2 ^ j)).sum % 256 := by
            rw [hEq]
            rfl
          rw [hchk0] at this
          exact (congrArg id this).symm
        have hmod2 : hdr0.sum + (frame.getD i 0 ^^^ 2 ^ j)
            ≡ hdr0.sum + frame.getD i 0 [MOD 256] := by
          calc hdr0.sum + (frame.getD i 0 ^^^ 2 ^ j)
              = (hdr0.set i (frame.getD i 0 ^^^ 2 ^ j)).sum + frame.getD i 0 := hsum.symm
            _ ≡ hdr0.sum + frame.getD i 0 [MOD 256] := hmod.add_right _
        have hmod3 : frame.getD i 0 ^^^ 2 ^ j ≡ frame.getD i 0 [MOD 256] :=
          Nat.ModEq.add_left_cancel' hdr0.sum hmod2
        have heqb : frame.getD i 0 ^^^ 2 ^ j = frame.getD i 0 := by
          have h4 : (frame.getD i 0 ^^^ 2 ^ j) % 256 = frame.getD i 0 % 256 := hmod3
          rw [Nat.mod_eq_of_lt hvlt, Nat.mod_eq_of_lt hblt] at h4
          exact h4
        exact xor_pow_ne_self (frame.getD i 0) j heqb
      rw [Packet_Parse_checksum_fail_eq flip dec t bp bl h13 hnt_flip hcs]
    · -- the checksum byte itself is flipped
      have hieq : i = frame.length - 1 := by omega
      have hlen2 : frame.length - 1 = hdr0.length := by omega
      have hgetD_chk : frame.getD i 0 = chk0 := by
        rw [hieq, hlen2, hfr, getD_snoc]
      have hflip_eq : flip = hdr0 ++ [chk0 ^^^ 2 ^ j] := by
        rw [hflipdef, hgetD_chk, hieq, hlen2, hfr, set_append_len]
        rfl
      have hlen' : flip.length - 1 = hdr0.length := by
        rw [hflip_len]
        omega
      have hrecv : flip.getD (flip.length - 1) 0 = chk0 ^^^ 2 ^ j := by
        rw [hlen', hflip_eq, getD_snoc]
      have htake : flip.take (flip.length - 1) = hdr0 := by
        rw [hlen', hflip_eq, List.take_left]
      have hcs : flip.getD (flip.length - 1) 0
          ≠ Packet_CalcChecksum (flip.take (flip.length - 1)) := by
        rw [hrecv, htake, ← hchk0]
        exact xor_pow_ne_self chk0 j
      rw [Packet_Parse_checksum_fail_eq flip dec t bp bl h13 hnt_flip hcs]

/-- C3 (witness): flipping bit 0 of the first body byte (offset 12) of the
serialized frame for target "CHAT", body [1, 2, 3] under the XOR cipher is
detected as ChecksumFail. -/
theorem C3_single_bit_flip_detected_witness :
    (Packet_Parse (([0, 0, 0, 16, 67, 72, 65, 84, 0, 0, 0, 0, 91, 88, 89, 60] : List Nat).set 12
        (([0, 0, 0, 16, 67, 72, 65, 84, 0, 0, 0, 0, 91, 88, 89, 60] : List Nat).getD 12 0 ^^^ 2 ^ 0))
        (some Packet_DefaultXor) true true true).result
      = PacketResult.PKT_ERR_CHECKSUM_FAIL ∨
    (Packet_Parse (([0, 0, 0, 16, 67, 72, 65, 84, 0, 0, 0, 0, 91, 88, 89, 60] : List Nat).set 12
        (([0, 0, 0, 16, 67, 72, 65, 84, 0, 0, 0, 0, 91, 88, 89, 60] : List Nat).getD 12 0 ^^^ 2 ^ 0))
        (some Packet_DefaultXor) true true true).result
      = PacketResult.PKT_ERR_LENGTH_MISMATCH :=
  C3_single_bit_flip_detected (some [67, 72, 65, 84]) [1, 2, 3]
    (some Packet_DefaultXor) [0, 0, 0, 16, 67, 72, 65, 84, 0, 0, 0, 0, 91, 88, 89, 60]
    (by decide) (by decide) (by decide) 12 0 (by decide) (by decide)
    (some Packet_DefaultXor) true true true

/-- C1 (witness): the round-trip theorem applied to target "CHAT", body
[1, 2, 3] and the XOR cipher in both directions. -/
theorem C1_serialize_parse_roundtrip_witness :
    ∃ frame tgt,
      Packet_Serialize DEFAULT_BUF_SIZE (some [67, 72, 65, 84]) [1, 2, 3]
        (some Packet_DefaultXor) = some frame ∧
      Packet_Parse frame (some Packet_DefaultXor) true true true =
        ⟨PacketResult.PKT_SUCCESS, some tgt, some [1, 2, 3], some 3⟩ ∧
      cString tgt = [67, 72, 65, 84] :=
  C1_serialize_parse_roundtrip [67, 72, 65, 84] [1, 2, 3]
    (some Packet_DefaultXor) (some Packet_DefaultXor)
    (by decide) (by decide) (by decide) (by decide) (by decide)

/-- C10 (witness): the theorem applied to a full queue of capacity 1 (the
enqueue fails and the state is unchanged) and to a null data pointer. -/
theorem C10_enqueue_failure_unchanged_witness :
    (SafeQueue_Enqueue (some (SafeQueue.mk [0] 1)) (some 7)).1
      = some (SafeQueue.mk [0] 1) ∧
    (SafeQueue_Enqueue (some (SafeQueue.mk [0] 1)) (none : Option Nat)).2.1 = false :=
  ⟨(C10_enqueue_failure_unchanged (some (SafeQueue.mk [0] 1)) (some 7)).1 (by decide),
   (C10_enqueue_failure_unchanged (some (SafeQueue.mk [0] 1)) none).2 rfl⟩

end TcpC
